import Mathlib

/-
Verification of the "shop-with-friends" session/sync core against its
specification.  The definitions below are a shallow embedding of:

  * `SessionManager` (src/unnamed/part_005) — in-memory backend plus a
    minimal model of the Redis (durable) backend it drives;
  * `WebSocketHandler` (src/api/websocketHandler.js, class part) — the
    connection registry, message router and broadcast mechanism;
  * the standalone relay server (same file, second module) — its
    `handleSignal` / `broadcastToSession` functions;
  * `WebSocketClient.attemptReconnect` (src/unnamed/part_008) and
    `RealSyncEngine.handleDisconnect` (src/services/realSyncService.ts);
  * `EventEmitter` (src/sdk/src/events.ts).

JavaScript `Map`s are modelled as association lists with first-match
lookup; `Map.set` replaces an existing key in place and appends a fresh
key at the end, exactly as JS `Map` preserves insertion order.  JS
objects (message payloads) are association lists from string keys to a
small value type, with `aset` modelling spread-then-override
(`{...payload, sourceId: x}`) semantics: an existing key is overwritten
in place, a new key is appended.  Nondeterministic inputs of the code
(generated ids such as `nanoid`, `Date.now()` timestamps) are passed in
as explicit parameters.
-/

namespace SWF

/-- First-match lookup in an association list, as `Map.get` / object
field access in JS. -/
def alookup {κ α : Type} [DecidableEq κ] : List (κ × α) → κ → Option α
  | [], _ => none
  | (k2, v) :: rest, k => if k2 = k then some v else alookup rest k

/-- `Map.set` / JS object key assignment: replace the first entry with
this key in place, otherwise append at the end. -/
def aset {κ α : Type} [DecidableEq κ] : List (κ × α) → κ → α → List (κ × α)
  | [], k, v => [(k, v)]
  | (k2, v2) :: rest, k, v =>
    if k2 = k then (k, v) :: rest else (k2, v2) :: aset rest k v

/-- `Map.delete`: drop the entry with this key. -/
def aerase {κ α : Type} [DecidableEq κ] (l : List (κ × α)) (k : κ) : List (κ × α) :=
  l.filter (fun p => decide (p.1 ≠ k))

/-- JS `Set.add`: append the element unless already present (insertion
order preserved). -/
def setAdd (l : List String) (u : String) : List String :=
  if u ∈ l then l else l ++ [u]

/-- Atomic JSON-ish values carried in message payload fields.  Opaque
structured content (SDP blobs, carts, ...) is represented by a `str`
atom; the routers never look inside it. -/
inductive JVal where
  | str : String → JVal
  | num : Nat → JVal
deriving DecidableEq, Repr

/-- A JS object: ordered key/value pairs. -/
abbrev Obj := List (String × JVal)

/-! ## SessionManager (src/unnamed/part_005), in-memory backend -/

/-- The session record built by `createSession`. -/
structure Session where
  id : String
  host : String
  participants : List String
  metadata : String
  createdAt : Nat
  expiresAt : Nat
deriving DecidableEq, Repr

/-- `this.SESSION_TTL = 30 * 60` seconds. -/
def SESSION_TTL : Nat := 30 * 60

/-- The in-memory storage of `SessionManager`: `this.sessions`,
`this.participants` (sessionId → Set of userIds) and `this.userNames`
(key `sessionId_userId` → name). -/
structure SMState where
  sessions : List (String × Session)
  participants : List (String × List String)
  userNames : List (String × String)
deriving DecidableEq, Repr

/-- The empty manager state (fresh `SessionManager` with Redis
unavailable). -/
def emptySM : SMState := { sessions := [], participants := [], userNames := [] }

/-- `createSession(hostUserId, metadata)`; the generated
`sess_<nanoid>` id and `Date.now()` are passed in explicitly. -/
def createSession (st : SMState) (sid hostUserId metadata : String) (now : Nat) :
    SMState × Session :=
  let session : Session :=
    { id := sid, host := hostUserId, participants := [hostUserId],
      metadata := metadata, createdAt := now,
      expiresAt := now + SESSION_TTL * 1000 }
  ({ sessions := aset st.sessions sid session,
     participants := aset st.participants sid [hostUserId],
     userNames := st.userNames }, session)

/-- `getSession(sessionId)`. -/
def getSession (st : SMState) (sid : String) : Option Session :=
  alookup st.sessions sid

/-- `addParticipant(sessionId, userId, userName)`: throws
`Session not found` on a missing session, otherwise pushes the user on
the record's participants array (unconditionally) and adds it to the
per-session `Set`. -/
def addParticipant (st : SMState) (sid uid : String) (name : Option String) :
    Except String (SMState × Session) :=
  match getSession st sid with
  | none => Except.error "Session not found"
  | some session =>
    let session2 : Session :=
      { session with participants := session.participants ++ [uid] }
    let pset := (alookup st.participants sid).getD []
    Except.ok
      ({ sessions := aset st.sessions sid session2,
         participants := aset st.participants sid (setAdd pset uid),
         userNames :=
           match name with
           | some n => aset st.userNames (sid ++ "_" ++ uid) n
           | none => st.userNames }, session2)

/-- `deleteSession(sessionId)`: removes the record, the participant set
and every `userNames` key starting with `sessionId_`. -/
def deleteSession (st : SMState) (sid : String) : SMState :=
  { sessions := aerase st.sessions sid,
    participants := aerase st.participants sid,
    userNames :=
      st.userNames.filter (fun p => ! (String.isPrefixOf (sid ++ "_") p.1)) }

/-- `removeParticipant(sessionId, userId)`: silently returns on a
missing session; filters every occurrence of the user out of the
record's array; deletes the whole session when the array empties. -/
def removeParticipant (st : SMState) (sid uid : String) : SMState :=
  match getSession st sid with
  | none => st
  | some session =>
    let ps := session.participants.filter (fun p => decide (p ≠ uid))
    if ps.isEmpty then deleteSession st sid
    else
      { sessions := aset st.sessions sid { session with participants := ps },
        participants :=
          match alookup st.participants sid with
          | some l => aset st.participants sid (l.filter (fun p => decide (p ≠ uid)))
          | none => st.participants,
        userNames := aerase st.userNames (sid ++ "_" ++ uid) }

/-- `getParticipants(sessionId)`: the per-session `Set` paired with the
stored display names (default `Anonymous`). -/
def getParticipants (st : SMState) (sid : String) : List (String × String) :=
  ((alookup st.participants sid).getD []).map
    (fun uid => (uid, (alookup st.userNames (sid ++ "_" ++ uid)).getD "Anonymous"))

/-- `refreshSession(sessionId)` on the in-memory backend: the whole
body is in the Redis branch, so in memory it does nothing
("In-memory sessions don't auto-expire in this implementation"). -/
def refreshSessionMem (st : SMState) (_sid : String) : SMState := st

/-- The participants array of the stored session record ([] when the
session does not exist). -/
def liveIds (st : SMState) (sid : String) : List String :=
  match getSession st sid with
  | some s => s.participants
  | none => []

/-- Length of the stored participants array. -/
def liveCount (st : SMState) (sid : String) : Nat := (liveIds st sid).length

/-- The per-session participant `Set` (the registry read by
`getParticipants`). -/
def regIds (st : SMState) (sid : String) : List String :=
  (alookup st.participants sid).getD []

/-! ## Durable (Redis) backend, modelled structurally

Keys `session:<id>`, `session:<id>:participants` and
`session:<id>:users` are modelled by the three `RKey` constructors; a
stored entry carries its value and its TTL (`none` = no expiry, as for
a set created by a bare `SADD`). -/

inductive RKey where
  | sess : String → RKey
  | parts : String → RKey
  | users : String → RKey
deriving DecidableEq, Repr

inductive RVal where
  | sess : Session → RVal
  | pset : List String → RVal
  | umap : List (String × String) → RVal
deriving DecidableEq, Repr

structure RedisState where
  entries : List (RKey × RVal × Option Nat)
deriving DecidableEq, Repr

/-- `SETEX key ttl value`. -/
def setexR (st : RedisState) (k : RKey) (ttl : Nat) (v : RVal) : RedisState :=
  { entries := aset st.entries k (v, some ttl) }

/-- `SADD key member`: creates a set with no TTL when the key is absent;
a wrong-typed key rejects the command leaving the store unchanged. -/
def saddR (st : RedisState) (k : RKey) (m : String) : RedisState :=
  match alookup st.entries k with
  | some (RVal.pset l, t) => { entries := aset st.entries k (RVal.pset (setAdd l m), t) }
  | some _ => st
  | none => { entries := aset st.entries k (RVal.pset [m], none) }

/-- `EXPIRE key ttl`: resets the TTL of an existing key, no-op
otherwise. -/
def expireR (st : RedisState) (k : RKey) (t : Nat) : RedisState :=
  match alookup st.entries k with
  | some (v, _) => { entries := aset st.entries k (v, some t) }
  | none => st

/-- `createSession` on the Redis backend: `SETEX` the record, `SADD` the
host into the participant set. -/
def createSessionRedis (st : RedisState) (sid hostUserId metadata : String) (now : Nat) :
    RedisState × Session :=
  let session : Session :=
    { id := sid, host := hostUserId, participants := [hostUserId],
      metadata := metadata, createdAt := now,
      expiresAt := now + SESSION_TTL * 1000 }
  (saddR (setexR st (RKey.sess sid) SESSION_TTL (RVal.sess session)) (RKey.parts sid) hostUserId,
   session)

/-- `getSession` on the Redis backend (`GET` + `JSON.parse`). -/
def getSessionRedis (st : RedisState) (sid : String) : Option Session :=
  match alookup st.entries (RKey.sess sid) with
  | some (RVal.sess s, _) => some s
  | _ => none

/-- `refreshSession` on the Redis backend: `EXPIRE` all three session
keys. -/
def refreshSessionRedis (st : RedisState) (sid : String) : RedisState :=
  expireR (expireR (expireR st (RKey.sess sid) SESSION_TTL)
      (RKey.parts sid) SESSION_TTL)
    (RKey.users sid) SESSION_TTL

/-- Stored value of a key, TTL ignored. -/
def rvalueOf (st : RedisState) (k : RKey) : Option RVal :=
  (alookup st.entries k).map (fun e => e.1)

/-- Stored TTL of a key. -/
def rttlOf (st : RedisState) (k : RKey) : Option (Option Nat) :=
  (alookup st.entries k).map (fun e => e.2)

/-! ## Operation sequences over the in-memory SessionManager -/

/-- One router-driven operation against a fixed session: a join
(`addParticipant`) or a leave (`removeParticipant`). -/
inductive SOp where
  | add : String → Option String → SOp
  | remove : String → SOp
deriving DecidableEq, Repr

/-- Apply one operation; a failing `addParticipant` (thrown error)
leaves the state unchanged, as the router catches it. -/
def applySOp (sid : String) (st : SMState) : SOp → SMState
  | SOp.add uid name =>
    match addParticipant st sid uid name with
    | Except.ok (st2, _) => st2
    | Except.error _ => st
  | SOp.remove uid => removeParticipant st sid uid

/-- Run a sequence of join/leave operations. -/
def runSeq (sid : String) (st : SMState) : List SOp → SMState
  | [] => st
  | op :: rest => runSeq sid (applySOp sid st op) rest

/-- A sequence is clean when every join adds an identity that is not
currently a participant of the (existing) session, and every leave
removes a current participant. -/
def okSeqB (sid : String) (st : SMState) : List SOp → Bool
  | [] => true
  | SOp.add uid name :: rest =>
    (getSession st sid).isSome && !((liveIds st sid).contains uid) &&
      okSeqB sid (applySOp sid st (SOp.add uid name)) rest
  | SOp.remove uid :: rest =>
    (liveIds st sid).contains uid &&
      okSeqB sid (applySOp sid st (SOp.remove uid)) rest

/-- Number of `add` operations in a sequence. -/
def addsCount : List SOp → Nat
  | [] => 0
  | SOp.add _ _ :: rest => addsCount rest + 1
  | SOp.remove _ :: rest => addsCount rest

/-- Number of `remove` operations in a sequence. -/
def removesCount : List SOp → Nat
  | [] => 0
  | SOp.add _ _ :: rest => removesCount rest
  | SOp.remove _ :: rest => removesCount rest + 1

/-- A repository operation on any session (for reachability of manager
states): create, add or remove. -/
inductive MOp where
  | create : String → String → String → Nat → MOp
  | add : String → String → Option String → MOp
  | remove : String → String → MOp
deriving DecidableEq, Repr

/-- Apply one repository operation. -/
def applyMOp (st : SMState) : MOp → SMState
  | MOp.create sid h m now => (createSession st sid h m now).1
  | MOp.add sid uid name =>
    match addParticipant st sid uid name with
    | Except.ok (st2, _) => st2
    | Except.error _ => st
  | MOp.remove sid uid => removeParticipant st sid uid

/-- Run repository operations from the empty manager state. -/
def runM (ops : List MOp) : SMState := ops.foldl applyMOp emptySM

/-! ## WebSocketHandler (src/api/websocketHandler.js, class part) -/

/-- One registered transport: its `readyState` (1 = OPEN) and the
`ws.sessionId` attachment written by create/join and cleared by
leave. -/
structure Conn where
  readyState : Nat
  sessionId : Option String
deriving DecidableEq, Repr

/-- Router state: `this.connections` (clientId → ws) plus the session
manager it drives. -/
structure HandlerState where
  connections : List (String × Conn)
  sm : SMState
deriving DecidableEq, Repr

/-- Server→client messages produced by the handlers under study. -/
inductive SMsg where
  | syncEvent : Obj → SMsg
  | error : String → SMsg
  | sessionLeft : String → SMsg
  | participantLeft : String → SMsg
  | participantJoined : String → String → SMsg
  | webrtcSignal : String → Option JVal → SMsg
  | signalMsg : Obj → SMsg
deriving DecidableEq, Repr

/-- `this.send(ws, message)`: only delivered when the socket is OPEN. -/
def sendTo (c : Conn) (clientId : String) (msg : SMsg) : List (String × SMsg) :=
  if c.readyState = 1 then [(clientId, msg)] else []

/-- `broadcastToSession(sessionId, message, excludeClientId)`: iterate
`getParticipants`, skip the excluded client, deliver to each
participant whose registered connection is OPEN. -/
def broadcastToSession (st : HandlerState) (sid : String) (msg : SMsg)
    (exclude : Option String) : List (String × SMsg) :=
  (getParticipants st.sm sid).filterMap (fun p =>
    if some p.1 = exclude then none
    else
      match alookup st.connections p.1 with
      | some c => if c.readyState = 1 then some (p.1, msg) else none
      | none => none)

/-- `handleSyncEvent(ws, clientId, payload)`: ERROR when the connection
is not attached; otherwise broadcast `{...payload, sourceId, timestamp}`
to every other participant and refresh the TTL (a no-op in memory).
Returns the new state and the list of (recipient, message) sends. -/
def handleSyncEvent (st : HandlerState) (sc : Conn) (sender : String)
    (payload : Obj) (now : Nat) : HandlerState × List (String × SMsg) :=
  match sc.sessionId with
  | none => (st, sendTo sc sender (SMsg.error "Not in a session"))
  | some sid =>
    let msg := SMsg.syncEvent
      (aset (aset payload "sourceId" (JVal.str sender)) "timestamp" (JVal.num now))
    let outs := broadcastToSession st sid msg (some sender)
    ({ st with sm := refreshSessionMem st.sm sid }, outs)

/-- `handleWebRTCSignal(ws, clientId, payload)`: ERROR when unattached;
otherwise find the connection whose id strictly equals `payload.targetId`
and whose attachment equals the sender's session, and send it
`{sourceId, signal}` when OPEN.  When `targetId` is absent the find
misses and nothing at all is sent. -/
def handleWebRTCSignal (st : HandlerState) (sc : Conn) (sender : String)
    (payload : Obj) : List (String × SMsg) :=
  match sc.sessionId with
  | none => sendTo sc sender (SMsg.error "Not in a session")
  | some sid =>
    let tv := alookup payload "targetId"
    match st.connections.find? (fun e =>
        decide (some (JVal.str e.1) = tv) && decide (e.2.sessionId = some sid)) with
    | some e =>
      if e.2.readyState = 1 then
        [(e.1, SMsg.webrtcSignal sender (alookup payload "signal"))]
      else []
    | none => []

/-- Clear `ws.sessionId` on the registered connection of a client. -/
def detach (st : HandlerState) (clientId : String) : HandlerState :=
  { st with connections :=
      match alookup st.connections clientId with
      | some c => aset st.connections clientId { c with sessionId := none }
      | none => st.connections }

/-- `handleLeaveSession(ws, clientId, payload)`: no attachment check —
remove the participant, broadcast PARTICIPANT_LEFT to the named session
(with no exclusion), reply SESSION_LEFT, detach. -/
def handleLeaveSession (st : HandlerState) (sc : Conn) (sender : String)
    (sid : String) : HandlerState × List (String × SMsg) :=
  let st1 : HandlerState := { st with sm := removeParticipant st.sm sid sender }
  let outs1 := broadcastToSession st1 sid (SMsg.participantLeft sender) none
  let outs2 := sendTo sc sender (SMsg.sessionLeft sid)
  (detach st1 sender, outs1 ++ outs2)

/-- Recognizer for ERROR replies. -/
def isErrorMsg : SMsg → Bool
  | SMsg.error _ => true
  | _ => false

/-- A client's registered connection exists and is OPEN. -/
def connLive (st : HandlerState) (uid : String) : Bool :=
  match alookup st.connections uid with
  | some c => c.readyState == 1
  | none => false

/-- Number of messages of an output batch addressed to one client. -/
def countTo (outs : List (String × SMsg)) (uid : String) : Nat :=
  (outs.filter (fun o => o.1 == uid)).length

/-! ## Standalone relay server (second module of websocketHandler.js) -/

/-- A session of the standalone server: host plus a `Map` from client
id to the stored socket's `readyState`. -/
structure StdSession where
  host : String
  participants : List (String × Nat)
deriving DecidableEq, Repr

structure StdState where
  sessions : List (String × StdSession)
deriving DecidableEq, Repr

/-- JS truthiness of an optional payload field. -/
def jsTruthy : Option JVal → Bool
  | some (JVal.str s) => !(s == "")
  | some (JVal.num n) => !(n == 0)
  | none => false

/-- The standalone `broadcastToSession(sessionId, message, senderId)`:
every stored participant except the sender whose socket is OPEN. -/
def broadcastStd (st : StdState) (sid : String) (msg : SMsg)
    (senderId : Option String) : List (String × SMsg) :=
  match alookup st.sessions sid with
  | none => []
  | some session =>
    session.participants.filterMap (fun e =>
      if some e.1 = senderId then none
      else if e.2 = 1 then some (e.1, msg) else none)

/-- The standalone `handleSignal(ws, clientId, data)`: silently returns
when unattached; stamps `sourceId` over the payload; with a truthy
`targetId` delivers only to that stored participant when OPEN, otherwise
broadcasts to every other participant. -/
def handleSignal (st : StdState) (senderSessionId : Option String)
    (sender : String) (payload : Obj) : List (String × SMsg) :=
  match senderSessionId with
  | none => []
  | some sid =>
    let msg := SMsg.signalMsg (aset payload "sourceId" (JVal.str sender))
    let tv := alookup payload "targetId"
    if jsTruthy tv then
      match alookup st.sessions sid with
      | none => []
      | some session =>
        match tv with
        | some (JVal.str tid) =>
          match alookup session.participants tid with
          | some rs => if rs = 1 then [(tid, msg)] else []
          | none => []
        | _ => []
    else broadcastStd st sid msg (some sender)

/-! ## Client reconnect engines -/

/-- `WebSocketClient.attemptReconnect` (src/unnamed/part_008): given the
current `reconnectAttempts`, either gives up (at the max of 5) or
returns the bumped counter and the scheduled delay
`1000 * 2 ** (attempts - 1)` — no cap. -/
def wsAttemptReconnect (attempts : Nat) : Option (Nat × Nat) :=
  if 5 ≤ attempts then none
  else some (attempts + 1, 1000 * 2 ^ ((attempts + 1) - 1))

/-- `RealSyncEngine.handleDisconnect` (src/services/realSyncService.ts):
delay `Math.min(1000 * 2 ** attempts, 10000)` after bumping, max 5
attempts. -/
def rsHandleDisconnect (attempts : Nat) : Option (Nat × Nat) :=
  if attempts < 5 then some (attempts + 1, min (1000 * 2 ^ (attempts + 1)) 10000)
  else none

/-- Delays scheduled over `n` consecutive transport losses starting
from attempt counter `a` (the counter is only reset by a successful
open, which never happens in a consecutive-loss run). -/
def runLosses (step : Nat → Option (Nat × Nat)) : Nat → Nat → List Nat
  | 0, _ => []
  | Nat.succ n, a =>
    match step a with
    | none => runLosses step n a
    | some (a2, d) => d :: runLosses step n a2

/-! ## EventEmitter (src/sdk/src/events.ts) -/

/-- Behaviour of one registered listener when invoked: `normal` just
receives the event; `thrower` receives it and throws (caught by the
`try/catch` in `emit`); `once` is the `once()` wrapper, which receives
the event and then removes itself via `off` (a `splice` on the live
callback array). -/
inductive LKind where
  | normal : LKind
  | thrower : LKind
  | once : LKind
deriving DecidableEq, Repr

/-- A registered listener (the id stands for the function reference). -/
structure Listener where
  id : Nat
  kind : LKind
deriving DecidableEq, Repr

/-- `off`: `indexOf` + `splice(index, 1)` — remove the first occurrence
only. -/
def removeFirst : List Listener → Listener → List Listener
  | [], _ => []
  | y :: ys, x => if y = x then ys else y :: removeFirst ys x

/-- The `callbacks.forEach` loop of `emit` on the live array: index `i`
advances by one per iteration; an index at or beyond the current length
is skipped (elements only ever get removed, never added, so the loop
then never visits anything again).  `fuel` is the array length captured
when the loop starts.  Returns the final listener array and the ids
that received the event, in order. -/
def emitGo : Nat → List Listener → Nat → List Nat → List Listener × List Nat
  | 0, cur, _, acc => (cur, acc)
  | Nat.succ f, cur, i, acc =>
    if h : i < cur.length then
      match (cur.get ⟨i, h⟩).kind with
      | LKind.once =>
        emitGo f (removeFirst cur (cur.get ⟨i, h⟩)) (i + 1)
          (acc ++ [(cur.get ⟨i, h⟩).id])
      | _ => emitGo f cur (i + 1) (acc ++ [(cur.get ⟨i, h⟩).id])
    else (cur, acc)

/-- `emit` for one topic: run the `forEach` over the listener array
registered at the moment of emission. -/
def emit (l : List Listener) : List Listener × List Nat :=
  emitGo l.length l 0 []

/-! ## Concrete fixture states used to evaluate the model -/

/-- A two-member session `s` (host `h`, guest `u` named `U`). -/
def sampleSM : SMState :=
  ⟨[("s", ⟨"s", "h", ["h", "u"], "m", 0, 1800000⟩)],
   [("s", ["h", "u"])],
   [("s_u", "U")]⟩

/-- Router state over `sampleSM`: `h` and `u` attached to `s` and open,
`z` open but attached to no session. -/
def sampleHS : HandlerState :=
  ⟨[("h", ⟨1, some "s"⟩), ("u", ⟨1, some "s"⟩), ("z", ⟨1, none⟩)], sampleSM⟩

/-- A one-member session `s` hosted by `h`. -/
def sampleSM1 : SMState :=
  ⟨[("s", ⟨"s", "h", ["h"], "m", 0, 1800000⟩)], [("s", ["h"])], []⟩

/-- Router state over `sampleSM1` with an extra unattached open client
`x`. -/
def sampleHS1 : HandlerState :=
  ⟨[("h", ⟨1, some "s"⟩), ("x", ⟨1, none⟩)], sampleSM1⟩

/-- A standalone-server session `s` with three stored open sockets. -/
def sampleStd : StdState :=
  ⟨[("s", ⟨"h", [("h", 1), ("u", 1), ("c", 1)]⟩)]⟩

/-! ## Helper lemmas about the map and object model -/

theorem alookup_aset {κ α : Type} [DecidableEq κ] (l : List (κ × α)) (k k2 : κ) (v : α) :
    alookup (aset l k v) k2 = if k2 = k then some v else alookup l k2 := by
  induction l with
  | nil =>
    have e1 : alookup (aset ([] : List (κ × α)) k v) k2
        = if k = k2 then some v else none := rfl
    rw [e1]
    by_cases hk2 : k2 = k
    · subst hk2; rw [if_pos rfl, if_pos rfl]
    · rw [if_neg (fun hh : k = k2 => hk2 hh.symm), if_neg hk2]; rfl
  | cons hd tl ih =>
    obtain ⟨a, b⟩ := hd
    by_cases hak : a = k
    · subst hak
      have e0 : aset ((a, b) :: tl) a v = (a, v) :: tl := by
        simp [aset]
      rw [e0]
      have e1 : alookup ((a, v) :: tl) k2
          = if a = k2 then some v else alookup tl k2 := rfl
      have e2 : alookup ((a, b) :: tl) k2
          = if a = k2 then some b else alookup tl k2 := rfl
      rw [e1, e2]
      by_cases hk2 : k2 = a
      · subst hk2; rw [if_pos rfl, if_pos rfl]
      · rw [if_neg (fun hh : a = k2 => hk2 hh.symm), if_neg hk2,
          if_neg (fun hh : a = k2 => hk2 hh.symm)]
    · have e0 : aset ((a, b) :: tl) k v = (a, b) :: aset tl k v := by
        simp [aset, hak]
      rw [e0]
      have e1 : alookup ((a, b) :: aset tl k v) k2
          = if a = k2 then some b else alookup (aset tl k v) k2 := rfl
      have e2 : alookup ((a, b) :: tl) k2
          = if a = k2 then some b else alookup tl k2 := rfl
      rw [e1, e2, ih]
      by_cases hk2 : k2 = k
      · subst hk2
        rw [if_neg hak, if_pos rfl, if_pos rfl]
      · simp only [if_neg hk2]

theorem alookup_aerase {κ α : Type} [DecidableEq κ] (l : List (κ × α)) (k k2 : κ) :
    alookup (aerase l k) k2 = if k2 = k then none else alookup l k2 := by
  induction l with
  | nil =>
    simp only [aerase, List.filter_nil, alookup]
    split_ifs <;> rfl
  | cons hd tl ih =>
    obtain ⟨a, b⟩ := hd
    simp only [aerase] at ih ⊢
    by_cases hak : a = k
    · rw [List.filter_cons_of_neg (by simp [hak])]
      rw [ih]
      subst hak
      simp only [alookup]
      split_ifs <;> simp_all
    · rw [List.filter_cons_of_pos (by simp [hak])]
      simp only [alookup, ih]
      split_ifs <;> simp_all

theorem countTo_filterMap_zero {α : Type} (key : α → String)
    (g : α → Option (String × SMsg)) (hg : ∀ a r, g a = some r → r.1 = key a)
    (l : List α) (uid : String) (h : uid ∉ l.map key) :
    countTo (l.filterMap g) uid = 0 := by
  induction l with
  | nil => rfl
  | cons a tl ih =>
    have hne : key a ≠ uid := by
      intro hh
      exact h (hh ▸ List.mem_map_of_mem key (List.mem_cons_self a tl))
    have h2 : uid ∉ tl.map key := by
      intro hh
      rcases List.mem_map.mp hh with ⟨x, hx, hkx⟩
      exact h (List.mem_map.mpr ⟨x, List.mem_cons_of_mem a hx, hkx⟩)
    simp only [List.filterMap_cons]
    cases hga : g a with
    | none => exact ih h2
    | some r =>
      have hf : (r.1 == uid) = false :=
        beq_eq_false_iff_ne.mpr (by rw [hg a r hga]; exact hne)
      simp only [countTo, List.filter_cons, hf, Bool.false_eq_true, if_neg]
      exact ih h2

theorem countTo_filterMap_one {α : Type} (key : α → String)
    (g : α → Option (String × SMsg)) (hg : ∀ a r, g a = some r → r.1 = key a)
    (l : List α) (hnd : (l.map key).Nodup) (uid : String) (r : String × SMsg)
    (a : α) (ha : a ∈ l) (hkey : key a = uid) (hr : g a = some r) :
    countTo (l.filterMap g) uid = 1 := by
  induction l with
  | nil => cases ha
  | cons b tl ih =>
    have hnd1 : key b ∉ tl.map key := (List.nodup_cons.mp hnd).1
    have hnd2 : (tl.map key).Nodup := (List.nodup_cons.mp hnd).2
    rcases List.mem_cons.mp ha with hab | hmem
    · subst hab
      simp only [List.filterMap_cons, hr]
      have ht : (r.1 == uid) = true := by
        rw [hg a r hr, hkey]; exact beq_self_eq_true uid
      simp only [countTo, List.filter_cons, ht, if_pos, List.length_cons]
      have h0 : countTo (tl.filterMap g) uid = 0 :=
        countTo_filterMap_zero key g hg tl uid (hkey ▸ hnd1)
      simp only [countTo] at h0
      rw [h0]
    · have hne : key b ≠ uid := by
        intro hh
        exact hnd1 (hh ▸ hkey ▸ List.mem_map_of_mem key hmem)
      simp only [List.filterMap_cons]
      cases hgb : g b with
      | none => exact ih hnd2 hmem
      | some r2 =>
        have hf : (r2.1 == uid) = false :=
          beq_eq_false_iff_ne.mpr (by rw [hg b r2 hgb]; exact hne)
        simp only [countTo, List.filter_cons, hf, Bool.false_eq_true, if_neg]
        exact ih hnd2 hmem

/-- Appending a fresh element keeps a list duplicate-free. -/
theorem nodup_append_singleton {l : List String} {u : String}
    (h : l.Nodup) (hu : u ∉ l) : (l ++ [u]).Nodup := by
  simp [List.nodup_append, h, hu]

theorem setAdd_nodup (l : List String) (u : String) (h : l.Nodup) :
    (setAdd l u).Nodup := by
  unfold setAdd
  split_ifs with hmem
  · exact h
  · exact nodup_append_singleton h hmem

/-- Removing a present element from a duplicate-free list reduces the
length by exactly one. -/
theorem filter_ne_length (l : List String) (a : String) (hnd : l.Nodup)
    (h : a ∈ l) :
    (l.filter (fun p => decide (p ≠ a))).length + 1 = l.length := by
  induction l with
  | nil => cases h
  | cons b tl ih =>
    have hnd1 : b ∉ tl := (List.nodup_cons.mp hnd).1
    have hnd2 : tl.Nodup := (List.nodup_cons.mp hnd).2
    rcases List.mem_cons.mp h with hab | hmem
    · subst hab
      rw [List.filter_cons_of_neg (by simp)]
      have he : tl.filter (fun p => decide (p ≠ a)) = tl := by
        apply List.filter_eq_self.mpr
        intro x hx
        simp only [decide_eq_true_eq]
        intro hxa
        exact hnd1 (hxa ▸ hx)
      rw [he, List.length_cons]
    · have hba : b ≠ a := fun hh => hnd1 (hh ▸ hmem)
      rw [List.filter_cons_of_pos (by simp [hba])]
      simp only [List.length_cons]
      rw [← ih hnd2 hmem]

/-- A `find?` over an association list with duplicate-free keys, with a
predicate that only ever accepts key `t`, finds exactly the entry of
key `t`. -/
theorem find?_unique_key (l : List (String × Conn)) (p : String × Conn → Bool)
    (t : String) (c : Conn) (hnd : (l.map Prod.fst).Nodup)
    (hm : (t, c) ∈ l) (hp : ∀ e, p e = true → e.1 = t) (hc : p (t, c) = true) :
    l.find? p = some (t, c) := by
  induction l with
  | nil => cases hm
  | cons e tl ih =>
    have hnd1 : e.1 ∉ tl.map Prod.fst := (List.nodup_cons.mp hnd).1
    have hnd2 : (tl.map Prod.fst).Nodup := (List.nodup_cons.mp hnd).2
    rcases List.mem_cons.mp hm with he | hmem
    · rw [← he]
      rw [List.find?_cons_of_pos _ hc]
    · cases hpe : p e with
      | true =>
        exfalso
        have het : e.1 = t := hp e hpe
        exact hnd1 (het ▸ List.mem_map_of_mem Prod.fst hmem)
      | false =>
        rw [List.find?_cons_of_neg _ (by simp [hpe])]
        exact ih hnd2 hmem

/-! ## Helper lemmas about the router broadcast -/

theorem map_fst_getParticipants (st : SMState) (sid : String) :
    (getParticipants st sid).map Prod.fst = regIds st sid := by
  unfold getParticipants regIds
  rw [List.map_map]
  exact List.map_id ((alookup st.participants sid).getD [])

/-- Every message produced by `broadcastToSession` goes to a
non-excluded registered participant of the session whose connection is
live, and carries exactly the broadcast message. -/
theorem mem_broadcast (st : HandlerState) (sid : String) (msg : SMsg)
    (exclude : Option String) (o : String × SMsg)
    (h : o ∈ broadcastToSession st sid msg exclude) :
    o.2 = msg ∧ some o.1 ≠ exclude ∧ o.1 ∈ regIds st.sm sid ∧
      connLive st o.1 = true := by
  rcases List.mem_filterMap.mp h with ⟨p, hp, hg⟩
  by_cases hex : some p.1 = exclude
  · rw [if_pos hex] at hg; cases hg
  · rw [if_neg hex] at hg
    cases hc : alookup st.connections p.1 with
    | none => simp [hc] at hg
    | some c =>
      simp only [hc] at hg
      by_cases hrs : c.readyState = 1
      · rw [if_pos hrs] at hg
        have ho : o = (p.1, msg) := (Option.some.inj hg).symm
        subst ho
        refine ⟨rfl, hex, ?_, ?_⟩
        · rw [← map_fst_getParticipants]
          exact List.mem_map_of_mem Prod.fst hp
        · simp [connLive, hc, hrs]
      · rw [if_neg hrs] at hg; cases hg

/-- A non-excluded registered participant with a live connection
receives exactly one copy of a broadcast (assuming the registry set is
duplicate-free, which holds for every reachable manager state). -/
theorem broadcast_count (st : HandlerState) (sid : String) (msg : SMsg)
    (exclude : Option String) (uid : String) (hnd : (regIds st.sm sid).Nodup)
    (hmem : uid ∈ regIds st.sm sid) (hexcl : some uid ≠ exclude)
    (hlive : connLive st uid = true) :
    countTo (broadcastToSession st sid msg exclude) uid = 1 := by
  obtain ⟨c, hc, hrs⟩ : ∃ c, alookup st.connections uid = some c ∧ c.readyState = 1 := by
    unfold connLive at hlive
    cases hc : alookup st.connections uid with
    | none => rw [hc] at hlive; cases hlive
    | some c =>
      rw [hc] at hlive
      exact ⟨c, rfl, by simpa using hlive⟩
  have hg : ∀ (a : String × String) (r : String × SMsg),
      (if some a.1 = exclude then none
        else match alookup st.connections a.1 with
          | some c2 => if c2.readyState = 1 then some (a.1, msg) else none
          | none => none) = some r → r.1 = a.1 := by
    intro a r hr
    by_cases hex : some a.1 = exclude
    · rw [if_pos hex] at hr; cases hr
    · rw [if_neg hex] at hr
      cases hca : alookup st.connections a.1 with
      | none => simp [hca] at hr
      | some c2 =>
        simp only [hca] at hr
        by_cases hrs2 : c2.readyState = 1
        · rw [if_pos hrs2] at hr
          exact congrArg Prod.fst (Option.some.inj hr).symm
        · rw [if_neg hrs2] at hr; cases hr
  have hnd2 : ((getParticipants st.sm sid).map Prod.fst).Nodup := by
    rw [map_fst_getParticipants]; exact hnd
  have ha : (uid, (alookup st.sm.userNames (sid ++ "_" ++ uid)).getD "Anonymous")
      ∈ getParticipants st.sm sid :=
    List.mem_map_of_mem _ hmem
  have hr : (if some uid = exclude then none
      else match alookup st.connections uid with
        | some c2 => if c2.readyState = 1 then some (uid, msg) else none
        | none => none) = some (uid, msg) := by
    rw [if_neg hexcl, hc]
    show (if c.readyState = 1 then some (uid, msg) else none) = some (uid, msg)
    rw [if_pos hrs]
  exact countTo_filterMap_one Prod.fst _ hg (getParticipants st.sm sid) hnd2 uid
    (uid, msg) _ ha rfl hr

/-! ## Helper lemmas about the reconnect engines -/

theorem ws_runLosses (n : Nat) : ∀ a : Nat,
    runLosses wsAttemptReconnect n a
      = (([1000, 2000, 4000, 8000, 16000] : List Nat).drop a).take n := by
  induction n with
  | zero => intro a; simp [runLosses]
  | succ n ih =>
    intro a
    by_cases ha : 5 ≤ a
    · have hstep : wsAttemptReconnect a = none := by simp [wsAttemptReconnect, ha]
      have hdrop : (([1000, 2000, 4000, 8000, 16000] : List Nat).drop a) = [] :=
        List.drop_eq_nil_of_le (by simp; omega)
      simp [runLosses, hstep, ih, hdrop]
    · push_neg at ha
      interval_cases a <;>
        simp [runLosses, wsAttemptReconnect, ih]

theorem rs_runLosses (n : Nat) : ∀ a : Nat,
    runLosses rsHandleDisconnect n a
      = (([2000, 4000, 8000, 10000, 10000] : List Nat).drop a).take n := by
  induction n with
  | zero => intro a; simp [runLosses]
  | succ n ih =>
    intro a
    by_cases ha : 5 ≤ a
    · have hstep : rsHandleDisconnect a = none := by
        simp [rsHandleDisconnect]; omega
      have hdrop : (([2000, 4000, 8000, 10000, 10000] : List Nat).drop a) = [] :=
        List.drop_eq_nil_of_le (by simp; omega)
      simp [runLosses, hstep, ih, hdrop]
    · push_neg at ha
      interval_cases a <;>
        simp [runLosses, rsHandleDisconnect, ih]

/-! ## Helper lemma about the event emitter -/

/-- When no registered listener is a self-removing `once` wrapper, the
`forEach` loop of `emit` leaves the listener array untouched and
delivers to the listeners at indices `i, i+1, ...` (up to the fuel) in
order. -/
theorem emitGo_no_once (f : Nat) : ∀ (cur : List Listener) (i : Nat) (acc : List Nat),
    (∀ x ∈ cur, x.kind ≠ LKind.once) →
    emitGo f cur i acc
      = (cur, acc ++ ((cur.drop i).take f).map (fun x => x.id)) := by
  induction f with
  | zero => intro cur i acc _; simp [emitGo]
  | succ f ih =>
    intro cur i acc h
    by_cases hi : i < cur.length
    · have hx : (cur.get ⟨i, hi⟩).kind ≠ LKind.once := h _ (List.get_mem cur i hi)
      simp only [emitGo, dif_pos hi]
      cases hk : (cur.get ⟨i, hi⟩).kind with
      | once => exact absurd hk hx
      | normal =>
        rw [ih cur (i + 1) (acc ++ [(cur.get ⟨i, hi⟩).id]) h]
        rw [List.drop_eq_getElem_cons hi]
        simp [List.get_eq_getElem, List.take_succ_cons]
        rw [List.drop_eq_getElem_cons (show i < (cur.map (fun x => x.id)).length by
          simpa using hi), List.take_succ_cons, List.getElem_map]
      | thrower =>
        rw [ih cur (i + 1) (acc ++ [(cur.get ⟨i, hi⟩).id]) h]
        rw [List.drop_eq_getElem_cons hi]
        simp [List.get_eq_getElem, List.take_succ_cons]
        rw [List.drop_eq_getElem_cons (show i < (cur.map (fun x => x.id)).length by
          simpa using hi), List.take_succ_cons, List.getElem_map]
    · simp only [emitGo, dif_neg hi]
      have hdrop : cur.drop i = [] := List.drop_eq_nil_of_le (Nat.le_of_not_lt hi)
      simp [hdrop]

/-! ## Helper lemmas about join/leave sequences -/

/-- Core accounting of a clean join/leave sequence: counts move by
exactly one per operation, and the session record disappears exactly
when the count reaches zero.  The invariant carried through is that an
existing session has a non-empty, duplicate-free participants array. -/
theorem runSeq_count (sid : String) (ops : List SOp) :
    ∀ st : SMState, okSeqB sid st ops = true →
      (∀ s, getSession st sid = some s → s.participants ≠ [] ∧ s.participants.Nodup) →
      liveCount (runSeq sid st ops) sid + removesCount ops
          = liveCount st sid + addsCount ops ∧
        (getSession (runSeq sid st ops) sid = none
          ↔ liveCount st sid + addsCount ops = removesCount ops) := by
  induction ops with
  | nil =>
    intro st _ hinv
    simp only [runSeq, addsCount, removesCount, Nat.add_zero]
    refine ⟨by trivial, ?_⟩
    constructor
    · intro hnone
      simp [liveCount, liveIds, hnone]
    · intro h0
      cases hs : getSession st sid with
      | none => rfl
      | some s =>
        exfalso
        apply (hinv s hs).1
        have hlen : s.participants.length = 0 := by
          simpa [liveCount, liveIds, hs] using h0
        exact List.length_eq_zero.mp hlen
  | cons op rest ih =>
    intro st hok hinv
    cases op with
    | add uid name =>
      simp only [okSeqB, Bool.and_eq_true] at hok
      obtain ⟨⟨hsome, hnotmem⟩, hrest⟩ := hok
      cases hs : getSession st sid with
      | none => simp [hs] at hsome
      | some s =>
        have hs' : alookup st.sessions sid = some s := hs
        have hmemF : uid ∉ s.participants := by
          simp [liveIds, hs, List.elem_iff] at hnotmem
          exact hnotmem
        have hget2 : getSession (applySOp sid st (SOp.add uid name)) sid
            = some { s with participants := s.participants ++ [uid] } := by
          simp [applySOp, addParticipant, hs, hs', getSession, alookup_aset]
        have hinv2 : ∀ s3, getSession (applySOp sid st (SOp.add uid name)) sid = some s3 →
            s3.participants ≠ [] ∧ s3.participants.Nodup := by
          intro s3 h3
          rw [hget2] at h3
          cases Option.some.inj h3
          constructor
          · simp
          · exact nodup_append_singleton (hinv s hs).2 hmemF
        have hIH := ih (applySOp sid st (SOp.add uid name)) hrest hinv2
        have hc1 : liveCount (applySOp sid st (SOp.add uid name)) sid
            = liveCount st sid + 1 := by
          simp [liveCount, liveIds, hget2, hs]
        simp only [runSeq, addsCount, removesCount]
        constructor
        · have h1 := hIH.1
          rw [hc1] at h1
          omega
        · rw [hIH.2, hc1]
          omega
    | remove uid =>
      simp only [okSeqB, Bool.and_eq_true] at hok
      obtain ⟨hcont, hrest⟩ := hok
      cases hs : getSession st sid with
      | none =>
        exfalso
        simp [liveIds, hs] at hcont
      | some s =>
        have hs' : alookup st.sessions sid = some s := hs
        have hmem : uid ∈ s.participants := by
          simpa [liveIds, hs, List.elem_iff] using hcont
        have hnodup := (hinv s hs).2
        have hlen := filter_ne_length s.participants uid hnodup hmem
        by_cases hemp : (s.participants.filter (fun p => decide (p ≠ uid))).isEmpty = true
        · have hget2 : getSession (applySOp sid st (SOp.remove uid)) sid = none := by
            simp only [applySOp, removeParticipant, hs]
            rw [if_pos hemp]
            simp [getSession, deleteSession, alookup_aerase]
          have hinv2 : ∀ s3, getSession (applySOp sid st (SOp.remove uid)) sid = some s3 →
              s3.participants ≠ [] ∧ s3.participants.Nodup := by
            intro s3 h3
            rw [hget2] at h3
            cases h3
          have hIH := ih (applySOp sid st (SOp.remove uid)) hrest hinv2
          have hc0 : liveCount (applySOp sid st (SOp.remove uid)) sid = 0 := by
            simp [liveCount, liveIds, hget2]
          have hc1 : liveCount st sid = 1 := by
            have hf0 : (s.participants.filter (fun p => decide (p ≠ uid))).length = 0 := by
              rw [List.isEmpty_iff] at hemp
              rw [hemp]
              rfl
            rw [hf0] at hlen
            simp only [liveCount, liveIds, hs]
            omega
          simp only [runSeq, addsCount, removesCount]
          constructor
          · have h1 := hIH.1
            rw [hc0] at h1
            omega
          · rw [hIH.2, hc0, hc1]
            omega
        · have hget2 : getSession (applySOp sid st (SOp.remove uid)) sid
              = some { s with participants :=
                  s.participants.filter (fun p => decide (p ≠ uid)) } := by
            simp only [applySOp, removeParticipant, hs]
            rw [if_neg hemp]
            simp [getSession, alookup_aset]
          have hne : s.participants.filter (fun p => decide (p ≠ uid)) ≠ [] := by
            intro hh
            apply hemp
            rw [hh]
            rfl
          have hinv2 : ∀ s3, getSession (applySOp sid st (SOp.remove uid)) sid = some s3 →
              s3.participants ≠ [] ∧ s3.participants.Nodup := by
            intro s3 h3
            rw [hget2] at h3
            cases Option.some.inj h3
            exact ⟨hne, hnodup.filter _⟩
          have hIH := ih (applySOp sid st (SOp.remove uid)) hrest hinv2
          have hc1 : liveCount (applySOp sid st (SOp.remove uid)) sid + 1
              = liveCount st sid := by
            simp only [liveCount, liveIds, hget2, hs]
            exact hlen
          simp only [runSeq, addsCount, removesCount]
          constructor
          · have h1 := hIH.1
            omega
          · rw [hIH.2]
            omega

/-! ## Helper lemma for the registry uniqueness invariant -/

/-- One repository operation preserves duplicate-freeness of every
per-session participant set in the registry. -/
theorem applyMOp_registry_nodup (st : SMState)
    (h : ∀ sid l, alookup st.participants sid = some l → l.Nodup) (op : MOp) :
    ∀ sid l, alookup (applyMOp st op).participants sid = some l → l.Nodup := by
  cases op with
  | create sid2 h2 m now =>
    intro sid l hl
    simp only [applyMOp, createSession] at hl
    rw [alookup_aset] at hl
    split_ifs at hl with hss
    · cases Option.some.inj hl
      exact List.nodup_singleton _
    · exact h sid l hl
  | add sid2 uid name =>
    intro sid l hl
    cases hs : getSession st sid2 with
    | none =>
      simp only [applyMOp, addParticipant, hs] at hl
      exact h sid l hl
    | some s =>
      simp only [applyMOp, addParticipant, hs] at hl
      rw [alookup_aset] at hl
      split_ifs at hl with hss
      · cases Option.some.inj hl
        apply setAdd_nodup
        cases hp : alookup st.participants sid2 with
        | none => simp
        | some l0 => simpa using h sid2 l0 hp
      · exact h sid l hl
  | remove sid2 uid =>
    intro sid l hl
    cases hs : getSession st sid2 with
    | none =>
      simp only [applyMOp, removeParticipant, hs] at hl
      exact h sid l hl
    | some s =>
      by_cases hemp : (s.participants.filter (fun p => decide (p ≠ uid))).isEmpty = true
      · simp only [applyMOp, removeParticipant, hs] at hl
        rw [if_pos hemp] at hl
        simp only [deleteSession] at hl
        rw [alookup_aerase] at hl
        split_ifs at hl
        exact h sid l hl
      · simp only [applyMOp, removeParticipant, hs] at hl
        rw [if_neg hemp] at hl
        cases hp : alookup st.participants sid2 with
        | none =>
          simp only [hp] at hl
          exact h sid l hl
        | some l0 =>
          simp only [hp] at hl
          rw [alookup_aset] at hl
          split_ifs at hl with hss
          · cases Option.some.inj hl
            exact (h sid2 l0 hp).filter _
          · exact h sid l hl

/-! ## Helper lemmas about the Redis model -/

theorem alookup_saddR (st : RedisState) (k k2 : RKey) (m : String) (hne : k2 ≠ k) :
    alookup (saddR st k m).entries k2 = alookup st.entries k2 := by
  cases hv : alookup st.entries k with
  | none => simp [saddR, hv, alookup_aset, hne]
  | some e =>
    obtain ⟨v, t⟩ := e
    cases v <;> simp [saddR, hv, alookup_aset, hne]

theorem alookup_expireR (st : RedisState) (k k2 : RKey) (t : Nat) :
    alookup (expireR st k t).entries k2
      = if k2 = k then (alookup st.entries k).map (fun e => (e.1, some t))
        else alookup st.entries k2 := by
  cases hv : alookup st.entries k with
  | none =>
    simp only [expireR, hv]
    split_ifs with hh
    · subst hh; simp [hv]
    · rfl
  | some e =>
    obtain ⟨v, t0⟩ := e
    simp only [expireR, hv]
    rw [alookup_aset]
    split_ifs with hh
    · simp
    · rfl

theorem rvalueOf_expireR (st : RedisState) (k : RKey) (t : Nat) (k2 : RKey) :
    rvalueOf (expireR st k t) k2 = rvalueOf st k2 := by
  unfold rvalueOf
  rw [alookup_expireR]
  split_ifs with hh
  · subst hh
    cases alookup st.entries k2 <;> rfl
  · rfl

theorem rttlOf_expireR_other (st : RedisState) (k k2 : RKey) (t : Nat) (hne : k2 ≠ k) :
    rttlOf (expireR st k t) k2 = rttlOf st k2 := by
  unfold rttlOf
  rw [alookup_expireR, if_neg hne]

theorem rttlOf_expireR_self (st : RedisState) (k : RKey) (t : Nat)
    (hk : (alookup st.entries k).isSome = true) :
    rttlOf (expireR st k t) k = some (some t) := by
  unfold rttlOf
  rw [alookup_expireR, if_pos rfl]
  cases hv : alookup st.entries k with
  | none => rw [hv] at hk; cases hk
  | some e => simp

theorem isSome_expireR (st : RedisState) (k : RKey) (t : Nat) (k2 : RKey) :
    (alookup (expireR st k t).entries k2).isSome = (alookup st.entries k2).isSome := by
  rw [alookup_expireR]
  split_ifs with hh
  · subst hh
    cases alookup st.entries k2 <;> rfl
  · rfl

/-! ## Claims -/

/-- C8: for every host identity and metadata, an immediate `get` with
the id returned by `create` (no intervening operations) returns a
session record with the very metadata passed to `create`, and with the
same id, host, createdAt and expiresAt as the record `create` returned —
on the in-memory backend and on the durable (Redis) backend alike. -/
theorem C8_create_get_roundtrip (stm : SMState) (str2 : RedisState)
    (sid h m : String) (now : Nat) :
    getSession (createSession stm sid h m now).1 sid
      = some (createSession stm sid h m now).2 ∧
    (createSession stm sid h m now).2.metadata = m ∧
    (createSession stm sid h m now).2.id = sid ∧
    (createSession stm sid h m now).2.host = h ∧
    (createSession stm sid h m now).2.createdAt = now ∧
    (createSession stm sid h m now).2.expiresAt = now + SESSION_TTL * 1000 ∧
    getSessionRedis (createSessionRedis str2 sid h m now).1 sid
      = some (createSessionRedis str2 sid h m now).2 ∧
    (createSessionRedis str2 sid h m now).2.metadata = m := by
  refine ⟨?_, rfl, rfl, rfl, rfl, rfl, ?_, rfl⟩
  · simp [createSession, getSession, alookup_aset]
  · have h1 : alookup (createSessionRedis str2 sid h m now).1.entries (RKey.sess sid)
        = some (RVal.sess (createSessionRedis str2 sid h m now).2, some SESSION_TTL) := by
      show alookup (saddR (setexR str2 (RKey.sess sid) SESSION_TTL
          (RVal.sess (createSessionRedis str2 sid h m now).2)) (RKey.parts sid) h).entries
          (RKey.sess sid) = _
      rw [alookup_saddR _ _ _ _ (fun hh => RKey.noConfusion hh)]
      simp [setexR, alookup_aset]
    simp [getSessionRedis, h1]

/-- C9 counterexample: on the in-memory backend `refreshSession` is an
exact no-op — at a state holding a live session it leaves the whole
state, and in particular the stored `expiresAt`, unchanged, so it does
not extend the session's expiry as the claim requires of both
backends. -/
theorem C9_counterexample :
    refreshSessionMem sampleSM1 "s" = sampleSM1 ∧
    (getSession sampleSM1 "s").isSome = true ∧
    (getSession (refreshSessionMem sampleSM1 "s") "s").map Session.expiresAt
      = (getSession sampleSM1 "s").map Session.expiresAt := by
  exact ⟨rfl, rfl, rfl⟩

/-- C9 (amended): `refreshSession` never alters session content: on the
durable backend it resets the TTL of the three session keys to the
configured TTL (when they exist) while leaving every stored value, and
the TTL of every unrelated key, untouched; on the in-memory backend it
is a complete no-op (state identical, expiry included — in-memory
entries never expire). -/
theorem C9_refresh_frame (stm : SMState) (sid : String) (str2 : RedisState) :
    refreshSessionMem stm sid = stm ∧
    (∀ k : RKey, rvalueOf (refreshSessionRedis str2 sid) k = rvalueOf str2 k) ∧
    (∀ k : RKey, k ≠ RKey.sess sid → k ≠ RKey.parts sid → k ≠ RKey.users sid →
      rttlOf (refreshSessionRedis str2 sid) k = rttlOf str2 k) ∧
    ((rvalueOf str2 (RKey.sess sid)).isSome = true →
      rttlOf (refreshSessionRedis str2 sid) (RKey.sess sid) = some (some SESSION_TTL)) ∧
    ((rvalueOf str2 (RKey.parts sid)).isSome = true →
      rttlOf (refreshSessionRedis str2 sid) (RKey.parts sid) = some (some SESSION_TTL)) ∧
    ((rvalueOf str2 (RKey.users sid)).isSome = true →
      rttlOf (refreshSessionRedis str2 sid) (RKey.users sid) = some (some SESSION_TTL)) := by
  have hisome : ∀ k : RKey, (alookup str2.entries k).isSome = (rvalueOf str2 k).isSome := by
    intro k
    unfold rvalueOf
    cases alookup str2.entries k <;> rfl
  refine ⟨rfl, ?_, ?_, ?_, ?_, ?_⟩
  · intro k
    unfold refreshSessionRedis
    rw [rvalueOf_expireR, rvalueOf_expireR, rvalueOf_expireR]
  · intro k h1 h2 h3
    unfold refreshSessionRedis
    rw [rttlOf_expireR_other _ _ _ _ h3, rttlOf_expireR_other _ _ _ _ h2,
      rttlOf_expireR_other _ _ _ _ h1]
  · intro hk
    unfold refreshSessionRedis
    rw [rttlOf_expireR_other _ _ _ _ (fun hh => RKey.noConfusion hh),
      rttlOf_expireR_other _ _ _ _ (fun hh => RKey.noConfusion hh)]
    exact rttlOf_expireR_self _ _ _ (by rw [hisome]; exact hk)
  · intro hk
    unfold refreshSessionRedis
    rw [rttlOf_expireR_other _ _ _ _ (fun hh => RKey.noConfusion hh)]
    apply rttlOf_expireR_self
    rw [isSome_expireR, hisome]
    exact hk
  · intro hk
    unfold refreshSessionRedis
    apply rttlOf_expireR_self
    rw [isSome_expireR, isSome_expireR, hisome]
    exact hk

/-- C9 witness: the amended theorem applied at a concrete one-entry
durable store. -/
theorem C9_refresh_frame_witness :
    (rvalueOf ⟨[(RKey.sess "s", RVal.sess ⟨"s", "h", ["h"], "m", 0, 1800000⟩, some 17)]⟩
        (RKey.sess "s")).isSome = true ∧
    rttlOf (refreshSessionRedis
        ⟨[(RKey.sess "s", RVal.sess ⟨"s", "h", ["h"], "m", 0, 1800000⟩, some 17)]⟩ "s")
        (RKey.sess "s") = some (some SESSION_TTL) :=
  ⟨by decide, (C9_refresh_frame sampleSM1 "s"
      ⟨[(RKey.sess "s", RVal.sess ⟨"s", "h", ["h"], "m", 0, 1800000⟩, some 17)]⟩).2.2.2.1
    (by decide)⟩

/-- C10: `removeParticipant` on a session id that names no existing
session returns normally and leaves the manager state exactly
unchanged, while `addParticipant` on the same input fails with the
`Session not found` error. -/
theorem C10_remove_missing (st : SMState) (sid uid : String) (name : Option String)
    (h : getSession st sid = none) :
    removeParticipant st sid uid = st ∧
    addParticipant st sid uid name = Except.error "Session not found" := by
  constructor
  · simp [removeParticipant, h]
  · simp [addParticipant, h]

/-- C10 witness: the theorem applied to the empty manager state. -/
theorem C10_remove_missing_witness :
    getSession emptySM "s1" = none ∧
    (removeParticipant emptySM "s1" "u1" = emptySM ∧
     addParticipant emptySM "s1" "u1" Option.none
        = Except.error "Session not found") :=
  ⟨rfl, C10_remove_missing emptySM "s1" "u1" Option.none rfl⟩

/-- C2 counterexample: one `addParticipant` (N = 1) followed by one
`removeParticipant` of an identity that is not a participant (M = 1)
leaves the live count at 2, not at (1 + N) − M = 1 — `removeParticipant`
silently no-ops on a non-member. -/
theorem C2_counterexample :
    liveCount (runSeq "s" (createSession emptySM "s" "h" "m" 0).1
        [SOp.add "u1" Option.none, SOp.remove "u2"]) "s" = 2 ∧
    liveCount (runSeq "s" (createSession emptySM "s" "h" "m" 0).1
        [SOp.add "u1" Option.none, SOp.remove "u2"]) "s" ≠ 1 + 1 - 1 := by
  exact ⟨by decide, by decide⟩

/-- C2 (amended): for every clean sequence of N joins and M leaves on a
freshly created session — each join adding an identity that is not
currently a participant of the (existing) session and each leave
removing a current participant — the live participant count equals
(1 + N) − M counting the host, and the session record is gone exactly
when that count reaches zero (a get after deletion returns none). -/
theorem C2_participant_count (st0 : SMState) (sid h m : String) (now : Nat)
    (ops : List SOp)
    (hok : okSeqB sid (createSession st0 sid h m now).1 ops = true) :
    liveCount (runSeq sid (createSession st0 sid h m now).1 ops) sid + removesCount ops
        = 1 + addsCount ops ∧
    (getSession (runSeq sid (createSession st0 sid h m now).1 ops) sid = none
      ↔ 1 + addsCount ops = removesCount ops) := by
  have hget1 : getSession (createSession st0 sid h m now).1 sid
      = some { id := sid, host := h, participants := [h], metadata := m,
               createdAt := now, expiresAt := now + SESSION_TTL * 1000 } := by
    simp [createSession, getSession, alookup_aset]
  have hinv : ∀ s, getSession (createSession st0 sid h m now).1 sid = some s →
      s.participants ≠ [] ∧ s.participants.Nodup := by
    intro s hs
    rw [hget1] at hs
    cases Option.some.inj hs
    exact ⟨by simp, List.nodup_singleton h⟩
  have hc1 : liveCount (createSession st0 sid h m now).1 sid = 1 := by
    simp [liveCount, liveIds, hget1]
  have hmain := runSeq_count sid ops (createSession st0 sid h m now).1 hok hinv
  rw [hc1] at hmain
  exact hmain

/-- C2 witness: host creates, `u` joins, host leaves — count 1, session
still present. -/
theorem C2_participant_count_witness :
    okSeqB "s" (createSession emptySM "s" "h" "m" 0).1
        [SOp.add "u" Option.none, SOp.remove "h"] = true ∧
    (liveCount (runSeq "s" (createSession emptySM "s" "h" "m" 0).1
          [SOp.add "u" Option.none, SOp.remove "h"]) "s"
        + removesCount [SOp.add "u" Option.none, SOp.remove "h"]
        = 1 + addsCount [SOp.add "u" Option.none, SOp.remove "h"] ∧
      (getSession (runSeq "s" (createSession emptySM "s" "h" "m" 0).1
            [SOp.add "u" Option.none, SOp.remove "h"]) "s" = none
        ↔ 1 + addsCount [SOp.add "u" Option.none, SOp.remove "h"]
          = removesCount [SOp.add "u" Option.none, SOp.remove "h"])) :=
  ⟨by decide, C2_participant_count emptySM "s" "h" "m" 0
      [SOp.add "u" Option.none, SOp.remove "h"] (by decide)⟩

/-- C4 counterexample: adding the host again after creating the session
leaves the session record's participants array at ["h", "h"] — a
duplicate, so the array is not a duplicate-free ordered set. -/
theorem C4_counterexample :
    liveIds (applyMOp (applyMOp emptySM (MOp.create "s" "h" "m" 0))
        (MOp.add "s" "h" Option.none)) "s" = ["h", "h"] ∧
    ¬ (liveIds (applyMOp (applyMOp emptySM (MOp.create "s" "h" "m" 0))
        (MOp.add "s" "h" Option.none)) "s").Nodup := by
  exact ⟨by decide, by decide⟩

/-- C4 (amended): the participant registry (the per-session `Set` that
`getParticipants` reads) contains no duplicate identity in any state
reachable by create/addParticipant/removeParticipant from the empty
manager — but the session record's participants array is not
deduplicated: re-adding a current participant appends a duplicate
there. -/
theorem C4_registry_nodup (ops : List MOp) (sid : String) (l : List String)
    (h : alookup (runM ops).participants sid = some l) : l.Nodup := by
  have hgen : ∀ (ops2 : List MOp) (st : SMState),
      (∀ sid2 l2, alookup st.participants sid2 = some l2 → l2.Nodup) →
      ∀ sid2 l2, alookup (ops2.foldl applyMOp st).participants sid2 = some l2 →
        l2.Nodup := by
    intro ops2
    induction ops2 with
    | nil => intro st hbase; exact hbase
    | cons op rest ih =>
      intro st hbase
      exact ih (applyMOp st op) (applyMOp_registry_nodup st hbase op)
  exact hgen ops emptySM (fun sid2 l2 h2 => by simp [emptySM, alookup] at h2) sid l h

/-- C4 witness: after create and a duplicate re-add of the host, the
registry set for `s` is still exactly ["h"]. -/
theorem C4_registry_nodup_witness :
    alookup (runM [MOp.create "s" "h" "m" 0, MOp.add "s" "h" Option.none]).participants
        "s" = some ["h"] ∧
    (["h"] : List String).Nodup :=
  ⟨by decide, C4_registry_nodup [MOp.create "s" "h" "m" 0, MOp.add "s" "h" Option.none]
      "s" ["h"] (by decide)⟩

/-- C1: a SYNC_EVENT from a connection attached to session `sid` is
stamped (spread-then-override) with the true sender id and the server
timestamp and delivered exactly once to every other registered
participant of that session whose connection is live; every delivery
goes to a registered participant of that session other than the sender
(so never to the sender and never to a non-participant); the manager
state is untouched; and from an unattached connection the router only
replies ERROR and changes nothing. -/
theorem C1_sync_event_broadcast (st : HandlerState) (sc : Conn) (sender : String)
    (payload : Obj) (now : Nat) :
    (sc.sessionId = none →
      handleSyncEvent st sc sender payload now
        = (st, sendTo sc sender (SMsg.error "Not in a session"))) ∧
    (∀ sid : String, sc.sessionId = some sid →
      (handleSyncEvent st sc sender payload now).1 = st ∧
      (∀ o ∈ (handleSyncEvent st sc sender payload now).2,
        o.1 ≠ sender ∧ o.1 ∈ regIds st.sm sid ∧
        o.2 = SMsg.syncEvent
          (aset (aset payload "sourceId" (JVal.str sender)) "timestamp"
            (JVal.num now))) ∧
      ((regIds st.sm sid).Nodup →
        ∀ uid : String, uid ≠ sender → uid ∈ regIds st.sm sid →
          connLive st uid = true →
          countTo (handleSyncEvent st sc sender payload now).2 uid = 1)) := by
  constructor
  · intro hnone
    simp [handleSyncEvent, hnone]
  · intro sid hsid
    refine ⟨?_, ?_, ?_⟩
    · simp [handleSyncEvent, hsid, refreshSessionMem]
    · intro o ho
      simp only [handleSyncEvent, hsid] at ho
      have hmb := mem_broadcast st sid _ (some sender) o ho
      refine ⟨?_, hmb.2.2.1, hmb.1⟩
      intro hh
      exact hmb.2.1 (by rw [hh])
    · intro hnd uid hne hmem hlive
      simp only [handleSyncEvent, hsid]
      apply broadcast_count st sid _ (some sender) uid hnd hmem ?_ hlive
      intro hh
      exact hne (Option.some.inj hh)

/-- C1 witness: in the two-member session fixture, `h` broadcasts a
NAVIGATE event and the other live participant `u` receives it exactly
once. -/
theorem C1_sync_event_broadcast_witness :
    countTo (handleSyncEvent sampleHS ⟨1, some "s"⟩ "h"
        [("eventType", JVal.str "NAVIGATE")] 5).2 "u" = 1 := by
  have h := C1_sync_event_broadcast sampleHS ⟨1, some "s"⟩ "h"
      [("eventType", JVal.str "NAVIGATE")] 5
  exact (h.2 "s" rfl).2.2 (by decide) "u" (by decide) (by decide) (by decide)

/-- C6 counterexample: the unattached client `x` sends LEAVE_SESSION
for the existing session `s`; the router broadcasts PARTICIPANT_LEFT to
the session's host and replies SESSION_LEFT to `x` — no ERROR is sent
and a success reply is sent, contrary to the claim. -/
theorem C6_counterexample :
    (handleLeaveSession sampleHS1 ⟨1, none⟩ "x" "s").2
      = [("h", SMsg.participantLeft "x"), ("x", SMsg.sessionLeft "s")] ∧
    (∀ o ∈ (handleLeaveSession sampleHS1 ⟨1, none⟩ "x" "s").2,
      isErrorMsg o.2 = false) := by
  exact ⟨by decide, by decide⟩

/-- C6 (amended): a SYNC_EVENT or WEBRTC_SIGNAL from an unattached
connection is rejected with an ERROR reply and no state change; but
LEAVE_SESSION performs no attachment check: whatever the connection's
attachment, it never produces an ERROR, and (when the socket is open)
it replies SESSION_LEFT after broadcasting PARTICIPANT_LEFT to the
named session. -/
theorem C6_not_in_session (st : HandlerState) (sc : Conn) (sender : String)
    (payload : Obj) (now : Nat) (sid : String) (hnone : sc.sessionId = none) :
    handleSyncEvent st sc sender payload now
      = (st, sendTo sc sender (SMsg.error "Not in a session")) ∧
    handleWebRTCSignal st sc sender payload
      = sendTo sc sender (SMsg.error "Not in a session") ∧
    (∀ o ∈ (handleLeaveSession st sc sender sid).2, isErrorMsg o.2 = false) ∧
    (sc.readyState = 1 →
      (sender, SMsg.sessionLeft sid) ∈ (handleLeaveSession st sc sender sid).2) := by
  refine ⟨?_, ?_, ?_, ?_⟩
  · simp [handleSyncEvent, hnone]
  · simp [handleWebRTCSignal, hnone]
  · intro o ho
    simp only [handleLeaveSession] at ho
    rcases List.mem_append.mp ho with h1 | h2
    · have hm := (mem_broadcast _ _ _ _ o h1).1
      rw [hm]
      rfl
    · unfold sendTo at h2
      by_cases hrs : sc.readyState = 1
      · rw [if_pos hrs] at h2
        have := List.mem_singleton.mp h2
        rw [this]
        rfl
      · rw [if_neg hrs] at h2
        cases h2
  · intro hrs
    simp only [handleLeaveSession]
    apply List.mem_append.mpr
    right
    simp [sendTo, hrs]

/-- C6 witness: the amended theorem applied at the fixture with the
unattached client `x`. -/
theorem C6_not_in_session_witness :
    handleSyncEvent sampleHS1 ⟨1, none⟩ "x" [] 0
      = (sampleHS1, sendTo ⟨1, none⟩ "x" (SMsg.error "Not in a session")) ∧
    ("x", SMsg.sessionLeft "s") ∈ (handleLeaveSession sampleHS1 ⟨1, none⟩ "x" "s").2 := by
  have h := C6_not_in_session sampleHS1 ⟨1, none⟩ "x" [] 0 "s" rfl
  exact ⟨h.1, h.2.2.2 rfl⟩

/-- C5 counterexample: across five consecutive losses the
WebSocketClient schedules delays 1 s, 2 s, 4 s, 8 s, 16 s — the fifth
exceeds the 10-second cap — and the RealSyncEngine schedules 2 s, 4 s,
8 s, 10 s, 10 s — the last two equal, so not strictly increasing. -/
theorem C5_counterexample :
    runLosses wsAttemptReconnect 5 0 = [1000, 2000, 4000, 8000, 16000] ∧
    ¬ (∀ d ∈ runLosses wsAttemptReconnect 5 0, d ≤ 10000) ∧
    runLosses rsHandleDisconnect 5 0 = [2000, 4000, 8000, 10000, 10000] ∧
    ¬ (runLosses rsHandleDisconnect 5 0).Pairwise (fun a b => a < b) := by
  refine ⟨by decide, by decide, by decide, by decide⟩

/-- C5 (amended): over any number of consecutive losses both engines
schedule at most 5 reconnect attempts; the WebSocketClient's delays are
strictly increasing but uncapped (they reach 16 s); the RealSyncEngine's
delays are non-decreasing and never exceed the 10-second cap. -/
theorem C5_reconnect_bounds (n : Nat) :
    (runLosses wsAttemptReconnect n 0).length ≤ 5 ∧
    (runLosses rsHandleDisconnect n 0).length ≤ 5 ∧
    (runLosses wsAttemptReconnect n 0).Pairwise (fun a b => a < b) ∧
    (runLosses rsHandleDisconnect n 0).Pairwise (fun a b => a ≤ b) ∧
    (∀ d ∈ runLosses rsHandleDisconnect n 0, d ≤ 10000) ∧
    (∀ d ∈ runLosses wsAttemptReconnect n 0, d ≤ 16000) := by
  rw [ws_runLosses, rs_runLosses]
  simp only [List.drop_zero]
  refine ⟨?_, ?_, ?_, ?_, ?_, ?_⟩
  · exact le_trans (List.take_sublist n _).length_le (by decide)
  · exact le_trans (List.take_sublist n _).length_le (by decide)
  · exact (show ([1000, 2000, 4000, 8000, 16000] : List Nat).Pairwise
        (fun a b => a < b) by decide).sublist (List.take_sublist n _)
  · exact (show ([2000, 4000, 8000, 10000, 10000] : List Nat).Pairwise
        (fun a b => a ≤ b) by decide).sublist (List.take_sublist n _)
  · intro d hd
    have hmem : d ∈ ([2000, 4000, 8000, 10000, 10000] : List Nat) :=
      List.take_subset n _ hd
    have hall : ∀ d2 ∈ ([2000, 4000, 8000, 10000, 10000] : List Nat),
        d2 ≤ 10000 := by decide
    exact hall d hmem
  · intro d hd
    have hmem : d ∈ ([1000, 2000, 4000, 8000, 16000] : List Nat) :=
      List.take_subset n _ hd
    have hall : ∀ d2 ∈ ([1000, 2000, 4000, 8000, 16000] : List Nat),
        d2 ≤ 16000 := by decide
    exact hall d hmem

/-- C5 witness: the amended bounds applied to a run of seven
consecutive losses. -/
theorem C5_reconnect_bounds_witness :
    (runLosses wsAttemptReconnect 7 0).length ≤ 5 ∧
    (∀ d ∈ runLosses rsHandleDisconnect 7 0, d ≤ 10000) :=
  ⟨(C5_reconnect_bounds 7).1, (C5_reconnect_bounds 7).2.2.2.2.1⟩

/-- C7 counterexample: with a `once` wrapper registered first and a
plain listener second, `emit` delivers only to the wrapper: its
self-removal during the `forEach` shifts the array and the second
listener is skipped for that event. -/
theorem C7_counterexample :
    (emit [⟨1, LKind.once⟩, ⟨2, LKind.normal⟩]).2 = [1] ∧
    (2 : Nat) ∉ (emit [⟨1, LKind.once⟩, ⟨2, LKind.normal⟩]).2 := by
  exact ⟨by decide, by decide⟩

/-- C7 (amended): when no registered listener unsubscribes itself
during delivery (no `once` wrapper among them), `emit` delivers the
event to every listener registered at the moment of emission, in
order — including throwing listeners, whose exceptions are caught so
they do not suppress delivery to the others — and the listener list is
unchanged afterwards.  A self-removing listener, however, makes the
following listener miss that event (see the counterexample). -/
theorem C7_emit_no_once (l : List Listener)
    (h : ∀ x ∈ l, x.kind ≠ LKind.once) :
    (emit l).2 = l.map (fun x => x.id) ∧ (emit l).1 = l := by
  unfold emit
  rw [emitGo_no_once l.length l 0 [] h]
  constructor
  · simp
  · rfl

/-- C7 witness: a throwing listener between two normal ones does not
stop delivery. -/
theorem C7_emit_no_once_witness :
    (emit [⟨1, LKind.normal⟩, ⟨2, LKind.thrower⟩, ⟨3, LKind.normal⟩]).2
      = [1, 2, 3] := by
  rw [(C7_emit_no_once [⟨1, LKind.normal⟩, ⟨2, LKind.thrower⟩, ⟨3, LKind.normal⟩]
      (by decide)).1]
  decide

/-- C3 counterexample: in the class router a WEBRTC_SIGNAL with no
targetId from `h` (attached to session `s`) is delivered to nobody,
although `u` is a registered participant of `s` with a live
connection — the claim requires delivery to all other participants. -/
theorem C3_counterexample :
    handleWebRTCSignal sampleHS ⟨1, some "s"⟩ "h" [("signal", JVal.str "offer")]
      = [] ∧
    "u" ∈ regIds sampleHS.sm "s" ∧ connLive sampleHS "u" = true := by
  exact ⟨rfl, by decide, by decide⟩

/-- C3 (amended): with a targetId, both routers deliver only to that
participant: the class router sends `{sourceId, signal}` to the unique
connection with that id attached to the sender's session when it is
OPEN, silently no-ops when no such connection exists, and — contrary to
the claim — delivers to nobody when the payload has no targetId; the
standalone SIGNAL handler delivers the payload stamped with the true
sender id to the stored target socket when OPEN (no-op when absent) and,
without a targetId, broadcasts it exactly once to every other stored
OPEN participant; stamping `sourceId` is the only alteration of the
payload. -/
theorem C3_signal_routing (st : HandlerState) (sc : Conn) (sender : String)
    (payload : Obj) (sid : String) (hsid : sc.sessionId = some sid)
    (std : StdState) :
    (∀ t : String, alookup payload "targetId" = some (JVal.str t) →
      (∀ o ∈ handleWebRTCSignal st sc sender payload,
        o.1 = t ∧ o.2 = SMsg.webrtcSignal sender (alookup payload "signal")) ∧
      ((st.connections.map Prod.fst).Nodup →
        ∀ c : Conn, (t, c) ∈ st.connections → c.sessionId = some sid →
          c.readyState = 1 →
          handleWebRTCSignal st sc sender payload
            = [(t, SMsg.webrtcSignal sender (alookup payload "signal"))]) ∧
      ((∀ e ∈ st.connections, e.1 = t → e.2.sessionId ≠ some sid) →
        handleWebRTCSignal st sc sender payload = [])) ∧
    (alookup payload "targetId" = none →
      handleWebRTCSignal st sc sender payload = []) ∧
    (∀ t : String, t ≠ "" → alookup payload "targetId" = some (JVal.str t) →
      ∀ session : StdSession, alookup std.sessions sid = some session →
        (alookup session.participants t = some 1 →
          handleSignal std (some sid) sender payload
            = [(t, SMsg.signalMsg (aset payload "sourceId" (JVal.str sender)))]) ∧
        (alookup session.participants t = none →
          handleSignal std (some sid) sender payload = [])) ∧
    (alookup payload "targetId" = none →
      ∀ session : StdSession, alookup std.sessions sid = some session →
        (∀ o ∈ handleSignal std (some sid) sender payload,
          o.1 ≠ sender ∧
          o.2 = SMsg.signalMsg (aset payload "sourceId" (JVal.str sender))) ∧
        ((session.participants.map Prod.fst).Nodup →
          ∀ uid : String, uid ≠ sender → (uid, 1) ∈ session.participants →
            countTo (handleSignal std (some sid) sender payload) uid = 1)) ∧
    (∀ k : String, k ≠ "sourceId" →
      alookup (aset payload "sourceId" (JVal.str sender)) k = alookup payload k) ∧
    alookup (aset payload "sourceId" (JVal.str sender)) "sourceId"
      = some (JVal.str sender) := by
  refine ⟨?_, ?_, ?_, ?_, ?_, ?_⟩
  · intro t htv
    refine ⟨?_, ?_, ?_⟩
    · intro o ho
      simp only [handleWebRTCSignal, hsid] at ho
      cases hfind : st.connections.find? (fun e =>
          decide (some (JVal.str e.1) = alookup payload "targetId") &&
          decide (e.2.sessionId = some sid)) with
      | none => simp only [hfind] at ho; cases ho
      | some e =>
        simp only [hfind] at ho
        by_cases hrs : e.2.readyState = 1
        · rw [if_pos hrs] at ho
          have ho2 := List.mem_singleton.mp ho
          have hpe := List.find?_some hfind
          simp only [Bool.and_eq_true, decide_eq_true_eq] at hpe
          have h1 := hpe.1
          rw [htv] at h1
          have het : e.1 = t := JVal.str.inj (Option.some.inj h1)
          rw [ho2, het]
          exact ⟨rfl, rfl⟩
        · rw [if_neg hrs] at ho; cases ho
    · intro hnd c hcmem hcs hcrs
      simp only [handleWebRTCSignal, hsid]
      have hfind : st.connections.find? (fun e =>
          decide (some (JVal.str e.1) = alookup payload "targetId") &&
          decide (e.2.sessionId = some sid)) = some (t, c) := by
        apply find?_unique_key st.connections _ t c hnd hcmem
        · intro e hpe
          simp only [Bool.and_eq_true, decide_eq_true_eq] at hpe
          have h1 := hpe.1
          rw [htv] at h1
          exact JVal.str.inj (Option.some.inj h1)
        · simp only [Bool.and_eq_true, decide_eq_true_eq]
          exact ⟨by rw [htv], hcs⟩
      simp only [hfind]
      rw [if_pos hcrs]
    · intro hno
      simp only [handleWebRTCSignal, hsid]
      have hfind : st.connections.find? (fun e =>
          decide (some (JVal.str e.1) = alookup payload "targetId") &&
          decide (e.2.sessionId = some sid)) = none := by
        rw [List.find?_eq_none]
        intro e he hpe
        simp only [Bool.and_eq_true, decide_eq_true_eq] at hpe
        have h1 := hpe.1
        rw [htv] at h1
        exact hno e he (JVal.str.inj (Option.some.inj h1)) hpe.2
      simp only [hfind]
  · intro htv
    simp only [handleWebRTCSignal, hsid]
    have hfind : st.connections.find? (fun e =>
        decide (some (JVal.str e.1) = alookup payload "targetId") &&
        decide (e.2.sessionId = some sid)) = none := by
      rw [List.find?_eq_none]
      intro e he hpe
      simp only [Bool.and_eq_true, decide_eq_true_eq] at hpe
      have h1 := hpe.1
      rw [htv] at h1
      cases h1
    simp only [hfind]
  · intro t hne htv session hses
    have htruthy : jsTruthy (alookup payload "targetId") = true := by
      rw [htv]
      simp only [jsTruthy, Bool.not_eq_true']
      exact beq_eq_false_iff_ne.mpr hne
    constructor
    · intro hpt
      simp only [handleSignal]
      rw [if_pos htruthy]
      simp only [hses, htv, hpt]
      simp
    · intro hpt
      simp only [handleSignal]
      rw [if_pos htruthy]
      simp only [hses, htv, hpt]
  · intro htv session hses
    have hfalse : ¬ jsTruthy (alookup payload "targetId") = true := by
      rw [htv]
      simp [jsTruthy]
    constructor
    · intro o ho
      simp only [handleSignal] at ho
      rw [if_neg hfalse] at ho
      simp only [broadcastStd, hses] at ho
      rcases List.mem_filterMap.mp ho with ⟨e, he, hg⟩
      by_cases hex : some e.1 = some sender
      · rw [if_pos hex] at hg; cases hg
      · rw [if_neg hex] at hg
        by_cases hrs : e.2 = 1
        · rw [if_pos hrs] at hg
          have hoe := Option.some.inj hg
          rw [← hoe]
          constructor
          · intro hh
            exact hex (by rw [hh])
          · rfl
        · rw [if_neg hrs] at hg; cases hg
    · intro hnd uid hne hmemp
      simp only [handleSignal]
      rw [if_neg hfalse]
      simp only [broadcastStd, hses]
      have hg : ∀ (a : String × Nat) (r : String × SMsg),
          (if some a.1 = some sender then none
            else if a.2 = 1 then
              some (a.1, SMsg.signalMsg (aset payload "sourceId" (JVal.str sender)))
            else none) = some r → r.1 = a.1 := by
        intro a r hr
        by_cases hex : some a.1 = some sender
        · rw [if_pos hex] at hr; cases hr
        · rw [if_neg hex] at hr
          by_cases hrs : a.2 = 1
          · rw [if_pos hrs] at hr
            exact congrArg Prod.fst (Option.some.inj hr).symm
          · rw [if_neg hrs] at hr; cases hr
      have hr : (if some (uid, 1).1 = some sender then none
          else if (uid, 1).2 = 1 then
            some ((uid, 1).1, SMsg.signalMsg (aset payload "sourceId" (JVal.str sender)))
          else none)
          = some (uid, SMsg.signalMsg (aset payload "sourceId" (JVal.str sender))) := by
        rw [if_neg (fun hh : some uid = some sender => hne (Option.some.inj hh))]
        rw [if_pos rfl]
      exact countTo_filterMap_one Prod.fst _ hg session.participants hnd uid
        (uid, SMsg.signalMsg (aset payload "sourceId" (JVal.str sender)))
        (uid, 1) hmemp rfl hr
  · intro k hk
    rw [alookup_aset, if_neg hk]
  · rw [alookup_aset, if_pos rfl]

/-- C3 witness: in the fixtures, a targeted class-router signal from
`h` reaches exactly `u` with the verbatim signal and true sourceId, and
an untargeted standalone SIGNAL from `h` reaches `u` exactly once. -/
theorem C3_signal_routing_witness :
    handleWebRTCSignal sampleHS ⟨1, some "s"⟩ "h"
        [("targetId", JVal.str "u"), ("signal", JVal.str "offer")]
      = [("u", SMsg.webrtcSignal "h" (some (JVal.str "offer")))] ∧
    countTo (handleSignal sampleStd (some "s") "h"
        [("signal", JVal.str "offer")]) "u" = 1 := by
  have h1 := C3_signal_routing sampleHS ⟨1, some "s"⟩ "h"
      [("targetId", JVal.str "u"), ("signal", JVal.str "offer")] "s" rfl sampleStd
  have h2 := C3_signal_routing sampleHS ⟨1, some "s"⟩ "h"
      [("signal", JVal.str "offer")] "s" rfl sampleStd
  constructor
  · exact (h1.1 "u" (by decide)).2.1 (by decide) ⟨1, some "s"⟩ (by decide) rfl rfl
  · exact (h2.2.2.2.1 rfl ⟨"h", [("h", 1), ("u", 1), ("c", 1)]⟩ (by decide)).2
      (by decide) "u" (by decide) (by decide)

end SWF
